import Mathlib

/-!
Verification of the resilient network-request layer of the `utils` browser
library (`src/js/utils.js`, with the duplicated variant in
`src/unnamed/part_000`): `safeFetch`, `fetchWithCSRF`, `getResponseType`,
`objectContainsFile`, `createHeaders`, `getCSRFToken`, `getCookie` and
`normalizeError` are embedded as executable Lean functions, and the
documented properties of the layer are proved or refuted against them.

Modelling conventions:
* JavaScript values flowing through the executor are represented by the
  inductive type `Utils.JsVal`; `null` is `JsVal.nullV`, `Error` instances
  are `JsVal.errV message extraProperties`.
* The network transport is an oracle `Nat → AttemptSpec` giving, for each
  attempt index, whether `fetch` delivers a `Response`, rejects with a
  network `TypeError`, or never settles on its own.
* An `async` JavaScript function that throws before its first `await`
  rejects its returned promise; this is `RunOutcome.raised`.
* `AbortController`/`setTimeout` state is the explicit `LoopState`
  threaded through the attempt loop: `aborted` is the controller's flag,
  `timerPending` whether the scheduled timeout is still armed.
-/

namespace Utils

/-- `leadsWith pat l` decides whether `pat` is an initial segment of `l`
(character-level `String.prototype.startsWith`). -/
def leadsWith : List Char → List Char → Bool
  | [], _ => true
  | _ :: _, [] => false
  | p :: ps, c :: cs => p == c && leadsWith ps cs

/-- `containsSeq pat l` decides whether `pat` occurs contiguously inside `l`
(character-level `String.prototype.includes`). -/
def containsSeq (pat : List Char) : List Char → Bool
  | [] => leadsWith pat []
  | c :: cs => leadsWith pat (c :: cs) || containsSeq pat cs

/-- `strStarts s pat` models `s.startsWith(pat)`. -/
def strStarts (s pat : String) : Bool :=
  leadsWith pat.data s.data

/-- `strContains s pat` models `s.includes(pat)`. -/
def strContains (s pat : String) : Bool :=
  containsSeq pat.data s.data

/-- JavaScript `x || ""` on a nullable string (`null`/`""` are falsy). -/
def orEmpty : Option String → String
  | some s => s
  | none => ""

/-- JavaScript truthiness of a nullable string: `null`, `undefined` and the
empty string are falsy. -/
def truthyOpt : Option String → Bool
  | some s => s != ""
  | none => false

/-- JavaScript `x || d` for a nullable string `x` and a string default. -/
def strOr : Option String → String → String
  | some s, d => if s == "" then d else s
  | none, d => d

/-- `s.toLowerCase()`, character by character. -/
def lowerStr (s : String) : String :=
  String.mk (s.data.map Char.toLower)

/-- Embedding of `getResponseType` (src/js/utils.js lines 994-1011), as a
function of the `Content-Type` header value (`response.headers.get`
returns `null` when the header is absent):

```js
const contentType = (response.headers.get("Content-Type") || "").toLowerCase();
if (contentType.includes("application/json")) return "json";
if (contentType.startsWith("text/")) return "text";
if (contentType.startsWith("multipart/")) return "multipart";
if (contentType.includes("application/octet-stream") ||
    contentType.startsWith("image/") || contentType.startsWith("audio/") ||
    contentType.startsWith("video/") || contentType.includes("application/pdf"))
  return "blob";
return "unknown";
```
-/
def getResponseType (header : Option String) : String :=
  let contentType := lowerStr (orEmpty header)
  if strContains contentType "application/json" then "json"
  else if strStarts contentType "text/" then "text"
  else if strStarts contentType "multipart/" then "multipart"
  else if strContains contentType "application/octet-stream"
      || strStarts contentType "image/"
      || strStarts contentType "audio/"
      || strStarts contentType "video/"
      || strContains contentType "application/pdf" then "blob"
  else "unknown"

/-- The response-classification table exactly as the specification words it
(first match wins, case-insensitive): containing `application/json` gives
`json`; prefixed by `text/` gives `text`; prefixed by `multipart/` gives
`multipart`; prefixed by `image/`, `audio/` or `video/`, or containing
`application/octet-stream` or `application/pdf`, gives the binary (`blob`)
category; anything else, including an absent header, gives `unknown`. -/
def classifySpec (header : Option String) : String :=
  let contentType := lowerStr (orEmpty header)
  if strContains contentType "application/json" then "json"
  else if strStarts contentType "text/" then "text"
  else if strStarts contentType "multipart/" then "multipart"
  else if strStarts contentType "image/"
      || strStarts contentType "audio/"
      || strStarts contentType "video/"
      || strContains contentType "application/octet-stream"
      || strContains contentType "application/pdf" then "blob"
  else "unknown"

/-- JavaScript values flowing through the request layer. `nullV` is the
JSON/JS `null`; `errV message extra` is an `Error` instance whose expando
properties (such as the `status` and `data` set by `safeFetch`) are the
association list `extra`; `abortErrV` is the `DOMException` produced by
`AbortController.abort`; `typeErrV` is a `TypeError` (thrown by
`JSON.stringify` on a cyclic structure, or the rejection of a failed
network transfer). -/
inductive JsVal where
  | nullV
  | boolV (b : Bool)
  | numV (n : Int)
  | strV (s : String)
  | arrV (xs : List JsVal)
  | objV (fields : List (String × JsVal))
  | errV (message : String) (extra : List (String × JsVal))
  | abortErrV
  | typeErrV (message : String)

/-- Property lookup `v[k]` on an object or on an `Error` carrying expando
properties; `none` models `undefined`. -/
def getProp : JsVal → String → Option JsVal
  | .objV fields, k => (fields.find? (fun p => p.1 == k)).map (fun p => p.2)
  | .errV _ extra, k => (extra.find? (fun p => p.1 == k)).map (fun p => p.2)
  | _, _ => none

/-- `v instanceof Error` for the values that the executor can throw
(`TypeError` and the modern `DOMException` both inherit from `Error`). -/
def isErrorInstance : JsVal → Bool
  | .errV _ _ => true
  | .abortErrV => true
  | .typeErrV _ => true
  | _ => false

/-- A header collection as a plain JavaScript object (case-sensitive keys,
values may be `null`), the shape `safeFetch` builds at lines 816-823. -/
abbrev HeaderObj := List (String × Option String)

/-- Property assignment `o[k] = v` on a plain object: overwrites the
existing key or appends a new one. -/
def objSet (o : HeaderObj) (k : String) (v : Option String) : HeaderObj :=
  if o.any (fun p => p.1 == k) then o.map (fun p => if p.1 == k then (k, v) else p)
  else o ++ [(k, v)]

/-- Object spread `{ ...base, ...extra }` for objects with unique keys. -/
def objMerge (base extra : HeaderObj) : HeaderObj :=
  extra.foldl (fun acc kv => objSet acc kv.1 kv.2) base

/-- The request body as `safeFetch` receives it in `options.body`.
A plain structured value (`objv`) is abstracted by the outcome of
`JSON.stringify` on it: `Except.error m` models a value on which
serialization throws a `TypeError` with message `m` (e.g. a cyclic
structure), `Except.ok s` a value serializing to the text `s`. -/
inductive BodyVal where
  | absent
  | strv (s : String)
  | formData
  | objv (stringifyResult : Except String String)

/-- The body actually handed to `fetch` after the `autoJSON` step. -/
inductive EncodedBody where
  | absent
  | text (s : String)
  | formData
  | rawObj

/-- Embedding of `safeFetch`'s body/header preparation
(src/js/utils.js lines 816-829):

```js
if (autoJSON && opts.body && typeof opts.body === "object"
    && !(opts.body instanceof FormData)) {
  opts.headers["Content-Type"] = "application/json";
  opts.body = JSON.stringify(opts.body);
}
```

`Except.error e` models the `TypeError` that `JSON.stringify` throws on an
unserializable structure; it is NOT caught by the function's try/catch
(which only wraps the attempt loop), so it rejects the whole call. -/
def encodeBody (autoJSON : Bool) (body : BodyVal) (headers : HeaderObj) :
    Except JsVal (EncodedBody × HeaderObj) :=
  match body with
  | .objv srl =>
      if autoJSON then
        let headers := objSet headers "Content-Type" (some "application/json")
        match srl with
        | .ok s => .ok (.text s, headers)
        | .error m => .error (.typeErrV m)
      else .ok (.rawObj, headers)
  | .absent => .ok (.absent, headers)
  | .strv s => .ok (.text s, headers)
  | .formData => .ok (.formData, headers)

/-- `true` exactly when the `autoJSON` preparation step of `safeFetch` does
not throw on this body. -/
def stringifyOk : Bool → BodyVal → Bool
  | true, .objv (.error _) => false
  | _, _ => true

/-- The external `Response` interface at the transport boundary: `status`,
`statusText`, `url`, the `content-type` header (`none` when absent), and
the outcomes of its body-reading methods — `jsonResult` is what
`response.json()` produces (`Except.error m` models a rejection with a
`SyntaxError` carrying message `m` on a malformed body), `textResult` what
`response.text()` produces. -/
structure Response where
  status : Nat
  statusText : String
  url : String
  contentType : Option String
  jsonResult : Except String JsVal
  textResult : String

/-- `response.ok`: derived from the 2xx success range. -/
def Response.ok (r : Response) : Bool :=
  decide (200 ≤ r.status ∧ r.status ≤ 299)

/-- Embedding of the body read in `safeFetch` (lines 837-840):
`contentType?.includes("application/json") ? response.json() : response.text()`
(the check is on the raw header value, not lowercased). -/
def readData (r : Response) : Except String JsVal :=
  match r.contentType with
  | some ct => if strContains ct "application/json" then r.jsonResult else .ok (.strV r.textResult)
  | none => .ok (.strV r.textResult)

/-- The `Error` object `safeFetch` constructs for a non-ok response
(lines 843-846): message `HTTP <status>: <statusText>`, with the expando
properties `status` and `data` (the already-read body). -/
def httpError (r : Response) (d : JsVal) : JsVal :=
  .errV ("HTTP " ++ toString r.status ++ ": " ++ r.statusText)
    [("status", .numV (r.status : Int)), ("data", d)]

/-- Per-attempt behavior of the transport oracle: deliver a response,
reject with a network `TypeError`, or never settle on its own. -/
inductive AttemptSpec where
  | respond (r : Response)
  | netFail (msg : String)
  | hang

/-- Whether an oracle entry is a transport-level failure. -/
def AttemptSpec.isNetFail : AttemptSpec → Bool
  | .netFail _ => true
  | _ => false

/-- The cancellation state of the single `AbortController` created at line
813 together with the single timeout scheduled at line 814: `aborted` is
`controller.signal.aborted`, `timerPending` whether the scheduled
`setTimeout(() => controller.abort(), timeout)` is still armed (it is
cleared only by the `clearTimeout(id)` at line 835, reached when a fetch
resolves). -/
structure LoopState where
  aborted : Bool
  timerPending : Bool

/-- Result of one iteration of the attempt loop body (lines 833-847):
the decoded body on the success path, the thrown value on any failure
path, or divergence when an unguarded fetch never settles. -/
inductive StepOut where
  | success (d : JsVal)
  | thrown (e : JsVal)
  | hangs

/-- One iteration of `safeFetch`'s try block (lines 833-847) together with
the cancellation state after it:
* a fetch issued on an already-aborted signal rejects immediately with the
  abort `DOMException`;
* a network failure rejects with a `TypeError` and leaves the timer armed;
* a hanging fetch under an armed timer is aborted when the timer fires
  (the controller becomes permanently aborted); with no timer armed the
  call never settles;
* an arriving response first clears the timer (`clearTimeout(id)`), then
  is decoded (a JSON parse failure throws), and a non-ok status throws the
  synthesized `httpError`. -/
def attemptStep (transport : Nat → AttemptSpec) (idx : Nat) (st : LoopState) :
    StepOut × LoopState :=
  if st.aborted then
    (.thrown .abortErrV, st)
  else
    match transport idx with
    | .netFail m => (.thrown (.typeErrV m), st)
    | .hang =>
        if st.timerPending then
          (.thrown .abortErrV, { aborted := true, timerPending := false })
        else
          (.hangs, st)
    | .respond r =>
        let st' : LoopState := { st with timerPending := false }
        match readData r with
        | .error m => (.thrown (.errV m []), st')
        | .ok d =>
            if r.ok then (.success d, st')
            else (.thrown (httpError r d), st')

/-- How a call to the executor ends: `raised e` when the async function
rejects (a throw outside the try/catch), `hanged` when it never settles,
and `resolved err data` for the `[err, data]` pair it returns (both slots
are JavaScript values; `null` slots are `JsVal.nullV`). -/
inductive RunOutcome where
  | raised (e : JsVal)
  | hanged
  | resolved (err : JsVal) (data : JsVal)

/-- Attempt trace and outcome of the retry loop. -/
structure LoopResult where
  attempts : List Bool
  outcome : RunOutcome

/-- Embedding of `safeFetch`'s retry loop (lines 831-857):
`while (attempts <= retries) { try ... catch (err) { if (attempts < retries)
{ attempts++; continue; } return [err, null]; } }`. `remaining` is
`retries - attempts`; each list entry of `attempts` records
`controller.signal.aborted` at the moment that attempt's `fetch` was
issued. -/
def safeFetchLoop (transport : Nat → AttemptSpec) (idx remaining : Nat)
    (st : LoopState) : LoopResult :=
  let entry := st.aborted
  match attemptStep transport idx st with
  | (.success d, _) => { attempts := [entry], outcome := .resolved .nullV d }
  | (.hangs, _) => { attempts := [entry], outcome := .hanged }
  | (.thrown e, st') =>
      match remaining with
      | 0 => { attempts := [entry], outcome := .resolved e .nullV }
      | r + 1 =>
          let rest := safeFetchLoop transport (idx + 1) r st'
          { attempts := entry :: rest.attempts, outcome := rest.outcome }

/-- Configuration object of `safeFetch`
(`{ autoJSON = true, retries = 0, timeout = 0 }`). -/
structure FetchConfig where
  autoJSON : Bool
  retries : Nat
  timeout : Nat

/-- The `options` argument of `safeFetch` (`RequestInit`): the fields the
executor actually touches. -/
structure RequestOptions where
  method : Option String
  headers : HeaderObj
  body : BodyVal

/-- The request as issued to `fetch` (constant across retry attempts,
since `opts` is built once before the loop). -/
structure IssuedRequest where
  url : String
  method : Option String
  headers : HeaderObj
  body : EncodedBody

/-- Full observable behavior of one `safeFetch` call: the issued request
(`none` when the call rejects before reaching `fetch`), the signal state
at each `fetch` invocation, and the outcome. -/
structure RunResult where
  request : Option IssuedRequest
  attempts : List Bool
  outcome : RunOutcome

/-- Embedding of `safeFetch` (src/js/utils.js lines 811-858), parameterized
by the transport oracle. A single `AbortController` and (when
`timeout != 0`) a single timeout are created before the loop; headers get
the `Accept: application/json` default under `options.headers` overrides;
the `autoJSON` step serializes a plain-object body — a serialization
`TypeError` is thrown OUTSIDE the try/catch and rejects the returned
promise (`RunOutcome.raised`). Otherwise the attempt loop runs. -/
def safeFetch (transport : Nat → AttemptSpec) (url : String)
    (options : RequestOptions) (cfg : FetchConfig) : RunResult :=
  let st : LoopState := { aborted := false, timerPending := decide (cfg.timeout ≠ 0) }
  let headers := objMerge [("Accept", some "application/json")] options.headers
  match encodeBody cfg.autoJSON options.body headers with
  | .error e => { request := none, attempts := [], outcome := .raised e }
  | .ok (encoded, headers) =>
      let res := safeFetchLoop transport 0 cfg.retries st
      { request := some { url := url, method := options.method,
                          headers := headers, body := encoded },
        attempts := res.attempts, outcome := res.outcome }

/-- Argument to `normalizeError`: either a `Response` or an arbitrary
JavaScript value. -/
inductive NormalizeArg where
  | respVal (r : Response)
  | jsVal (v : JsVal)

/-- The `message` of an `Error` instance (the abort `DOMException` carries
the standard abort message). -/
def jsErrMessage : JsVal → String
  | .errV m _ => m
  | .typeErrV m => m
  | .abortErrV => "The operation was aborted."
  | _ => ""

/-- Embedding of `normalizeError` (src/js/utils.js lines 1090-1121). For a
`Response`, the best-effort body is `clone.json()` when it parses; when
`json()` rejects, the clone's body stream is already consumed, so the
`clone.text()` fallback rejects as well and the outer catch degrades the
body to `null`. `statusText` is `error.statusText || ""`, which equals the
status text itself. Error stacks are not modelled (`stack` is recorded as
`null`). Anything that is neither a `Response` nor an `Error` is wrapped
verbatim in the `unknown` variant. -/
def normalizeError : NormalizeArg → JsVal
  | .respVal r =>
      let body : JsVal :=
        match r.jsonResult with
        | .ok v => v
        | .error _ => .nullV
      .objV [("type", .strV "http"), ("status", .numV (r.status : Int)),
             ("statusText", .strV r.statusText), ("url", .strV r.url),
             ("body", body)]
  | .jsVal v =>
      if isErrorInstance v then
        .objV [("type", .strV "js"),
               ("message", .strV (if jsErrMessage v == "" then "Unknown error" else jsErrMessage v)),
               ("stack", .nullV)]
      else
        .objV [("type", .strV "unknown"), ("value", v)]

/-- `true` iff once an entry of the attempt trace is `true` (the signal was
aborted when that fetch was issued), every later entry is `true` as well. -/
def abortMono : List Bool → Bool
  | [] => true
  | true :: rest => rest.all (fun b => b == true)
  | false :: rest => abortMono rest

/-- A value tree as inspected by the payload helpers: file/blob handles, a
`FileList` of a given length, `FormData` entries, plain objects, and
primitive leaves. -/
inductive FileVal where
  | file
  | blob
  | fileList (n : Nat)
  | str (s : String)
  | nullv
  | undef
  | formData (entries : List (String × FileVal))
  | obj (fields : List (String × FileVal))

mutual

/-- Embedding of the recursive helper `containsFile` (a local function of
`formParser`, src/unnamed/part_000 lines 174-187): `File`/`Blob` leaves and
non-empty `FileList`s are binary; `FormData` and plain objects are searched
recursively (an empty `FileList` falls through to the object branch, whose
`Object.values` are empty, giving `false`); primitives, `null` and
`undefined` give `false`. -/
def containsFile : FileVal → Bool
  | .file => true
  | .blob => true
  | .fileList n => decide (0 < n)
  | .str _ => false
  | .nullv => false
  | .undef => false
  | .formData entries => entriesContainFile entries
  | .obj fields => entriesContainFile fields

/-- `Object.values(x).some(containsFile)` over the entry values. -/
def entriesContainFile : List (String × FileVal) → Bool
  | [] => false
  | kv :: rest => containsFile kv.2 || entriesContainFile rest

end

/-- Embedding of `objectContainsFile` (src/js/utils.js lines 944-957) AS
WRITTEN: it recurses through the identifier `containsFile`, which is not
defined anywhere in the scope of src/js/utils.js (it exists only as a local
helper inside `formParser` in src/unnamed/part_000), so every branch that
evaluates that identifier throws a `ReferenceError` — `FormData` with at
least one entry (the loop body evaluates `containsFile(value)`), and every
plain object or empty `FileList` (evaluating the argument `containsFile` of
`Object.values(obj).some(containsFile)` throws before `some` runs, even on
an empty object). `Except.error` carries the thrown `ReferenceError`. -/
def objectContainsFile : FileVal → Except String Bool
  | .file => .ok true
  | .blob => .ok true
  | .fileList n =>
      if 0 < n then .ok true
      else .error "ReferenceError: containsFile is not defined"
  | .formData [] => .ok false
  | .formData (_ :: _) => .error "ReferenceError: containsFile is not defined"
  | .obj _ => .error "ReferenceError: containsFile is not defined"
  | .str _ => .ok false
  | .nullv => .ok false
  | .undef => .ok false

/-- A `Headers` object (external Fetch API collaborator): names are
case-insensitive, so entries are stored under lowercased names; `set`
replaces any existing entry. Entry order is not observable through `get`
and is not modelled. -/
def headersSet (hs : List (String × String)) (name value : String) :
    List (String × String) :=
  hs.filter (fun p => p.1 != lowerStr name) ++ [(lowerStr name, value)]

/-- `Headers.get`: case-insensitive lookup, `null` (`none`) when absent. -/
def headersGet (hs : List (String × String)) (name : String) : Option String :=
  (hs.find? (fun p => p.1 == lowerStr name)).map (fun p => p.2)

/-- The options object of `createHeaders`
(`{ isJson = true, token = null, extra = {} }`). `extra` is a plain
JavaScript object: unique, case-sensitive keys. -/
structure HeaderOptions where
  isJson : Bool
  token : Option String
  extra : List (String × String)

/-- Property read `extra[k]` on the plain `extra` object (case-sensitive). -/
def extraGet (extra : List (String × String)) (k : String) : Option String :=
  (extra.find? (fun p => p.1 == k)).map (fun p => p.2)

/-- Embedding of `createHeaders` (src/js/utils.js lines 1146-1162):

```js
const headers = new Headers();
if (isJson && !extra["Content-Type"]) headers.set("Content-Type", "application/json");
if (token) headers.set("Authorization", `Bearer ` + token);
for (const [key, value] of Object.entries(extra)) headers.set(key, value);
return headers;
```
-/
def createHeaders (o : HeaderOptions) : List (String × String) :=
  let headers : List (String × String) := []
  let headers :=
    if o.isJson && !(truthyOpt (extraGet o.extra "Content-Type")) then
      headersSet headers "Content-Type" "application/json"
    else headers
  let headers :=
    match o.token with
    | some t => if t != "" then headersSet headers "Authorization" ("Bearer " ++ t) else headers
    | none => headers
  o.extra.foldl (fun hs kv => headersSet hs kv.1 kv.2) headers

/-- `replace(/^"+|"+$/g, '')`: strip leading and trailing double quotes. -/
def stripQuotes (s : String) : String :=
  String.mk (((s.data.dropWhile (fun c => c == '"')).reverse.dropWhile
    (fun c => c == '"')).reverse)

/-- Embedding of `getCookie` (src/js/utils.js lines 1564-1574) as a function
of the `document.cookie` string:

```js
if (!document.cookie) return null;
return document.cookie.split(';').map(c => c.trim())
  .find(c => c.startsWith(`name=`))?.split('=')[1]
  ?.replace(/^"+|"+$/g, '') ?? null;
```

Note a cookie `name=` yields the empty string (the `?? null` does not turn
`""` into `null`). -/
def getCookie (documentCookie : String) (name : String) : Option String :=
  if documentCookie == "" then none
  else
    match ((documentCookie.splitOn ";").map (fun c => c.trim)).find?
        (fun c => strStarts c (name ++ "=")) with
    | none => none
    | some c =>
        match (c.splitOn "=")[1]? with
        | none => none
        | some part => some (stripQuotes part)

/-- The DOM collaborators of the CSRF token resolver: the value of the
hidden input `input[name="csrfmiddlewaretoken"]` (`none` when the element
is absent; `some ""` when present but empty), the content of the meta tag
`meta[name="csrf-token"]`, and the `document.cookie` string. -/
structure Dom where
  hiddenInput : Option String
  metaTag : Option String
  documentCookie : String

/-- Result of one call to the CSRF token resolver: the returned token, the
module-level `cachedToken` after the call, and the number of
`document.querySelector` lookups the call performed. -/
structure CSRFLookupResult where
  token : Option String
  cache : Option String
  queries : Nat

/-- Embedding of `getCSRFToken` (src/js/utils.js lines 1577-1610), with the
closed-over `cachedToken` made an explicit argument/result. A truthy cache
is returned without touching the DOM; otherwise the hidden input is queried
(one lookup), else the meta tag (a second lookup), else the `csrftoken`
cookie; the first truthy source is stored in the cache; when nothing is
found the function warns and returns `null` WITHOUT writing the cache. -/
def getCSRFToken (dom : Dom) (cachedToken : Option String) : CSRFLookupResult :=
  if truthyOpt cachedToken then
    { token := cachedToken, cache := cachedToken, queries := 0 }
  else if truthyOpt dom.hiddenInput then
    { token := dom.hiddenInput, cache := dom.hiddenInput, queries := 1 }
  else if truthyOpt dom.metaTag then
    { token := dom.metaTag, cache := dom.metaTag, queries := 2 }
  else
    let cookieToken := getCookie dom.documentCookie "csrftoken"
    if truthyOpt cookieToken then
      { token := cookieToken, cache := cookieToken, queries := 2 }
    else
      { token := none, cache := cachedToken, queries := 2 }

/-- Embedding of `fetchWithCSRF` (src/js/utils.js lines 1614-1630):

```js
const csrfToken = getCSRFToken();
const headers = { "X-CSRFToken": csrfToken, ...(options.headers || {}) };
return safeFetch(url, { ...options, headers, method: options.method || "POST" },
                 { autoJSON: true });
```

The config passes only `autoJSON: true`, so `retries` and `timeout` take
their defaults `0`. Returns the run result together with the CSRF cache
after the embedded resolver call. -/
def fetchWithCSRF (transport : Nat → AttemptSpec) (dom : Dom)
    (cache : Option String) (url : String) (options : RequestOptions) :
    RunResult × Option String :=
  let lookup := getCSRFToken dom cache
  let headers := objMerge [("X-CSRFToken", lookup.token)] options.headers
  (safeFetch transport url
    { method := some (strOr options.method "POST"), headers := headers,
      body := options.body }
    { autoJSON := true, retries := 0, timeout := 0 },
   lookup.cache)

/-- A transport oracle that never settles (used as the "don't care" oracle
in runs that reject before reaching `fetch`). -/
def hangTransport : Nat → AttemptSpec := fun _ => .hang

/-- A concrete 404 JSON response used to exercise the non-ok path. -/
def respNotFound : Response :=
  { status := 404, statusText := "Not Found", url := "/x",
    contentType := some "application/json",
    jsonResult := .ok (.objV [("detail", .strV "gone")]),
    textResult := "\x7b\x22detail\x22:\x22gone\x22\x7d" }

/-- A concrete successful response whose JSON body is the literal `null`. -/
def respJsonNull : Response :=
  { status := 200, statusText := "OK", url := "/x",
    contentType := some "application/json",
    jsonResult := .ok .nullV, textResult := "null" }

/-- A concrete DOM holding a hidden-input CSRF token. -/
def domWithHidden : Dom :=
  { hiddenInput := some "tok123", metaTag := none, documentCookie := "" }

/-- A concrete DOM with no CSRF token source at all. -/
def domEmpty : Dom :=
  { hiddenInput := none, metaTag := none, documentCookie := "" }

/-- A concrete `createHeaders` option set exercising override, bearer and
default behavior together. -/
def headerOptsW : HeaderOptions :=
  { isJson := true, token := some "abc123",
    extra := [("X-Client", "my-app"), ("Content-Type", "text/plain")] }

/-! ## Theorems -/

theorem blobCond_comm (c : String) :
    (strContains c "application/octet-stream" || strStarts c "image/"
      || strStarts c "audio/" || strStarts c "video/"
      || strContains c "application/pdf")
      = (strStarts c "image/" || strStarts c "audio/" || strStarts c "video/"
        || strContains c "application/octet-stream"
        || strContains c "application/pdf") := by
  cases strContains c "application/octet-stream" <;>
    cases strStarts c "image/" <;>
    cases strStarts c "audio/" <;>
    cases strStarts c "video/" <;>
    cases strContains c "application/pdf" <;> rfl

/-- C6: the response classifier `getResponseType` is a pure function of the
content-type header and realizes exactly the first-match-wins,
case-insensitive table stated in the specification: containing
`application/json` gives `json`; prefix `text/` gives `text`; prefix
`multipart/` gives `multipart`; prefix `image/`, `audio/` or `video/`, or
containing `application/octet-stream` or `application/pdf`, gives the
binary (`blob`) category; anything else, including an absent header, gives
`unknown`. Identical input therefore always yields the identical
category. -/
theorem getResponseType_matches_claim (header : Option String) :
    getResponseType header = classifySpec header := by
  simp only [getResponseType, classifySpec, blobCond_comm]

/-- C1 is violated by the code: `JSON.stringify(opts.body)` at line 828 runs
before (outside) the try/catch of the attempt loop, so for a body that
cannot be serialized (a cyclic structure) the `TypeError` rejects the
promise returned by `safeFetch` — the call raises with zero transport
attempts instead of resolving to a `ResponseOutcome` with a runtime error
in the error slot. -/
theorem safeFetch_cyclic_body_raises :
    safeFetch hangTransport "/api/items"
      { method := some "POST", headers := [],
        body := .objv (.error "Converting circular structure to JSON") }
      { autoJSON := true, retries := 0, timeout := 0 }
      = { request := none, attempts := [],
          outcome := .raised (.typeErrV "Converting circular structure to JSON") } := rfl

/-- C2 counterexample: with `timeout = 1000`, `retries = 1` and a transport
that never settles, the single shared `AbortController` is aborted by the
timeout during the first attempt, and the retry attempt is issued with the
ALREADY-ABORTED signal (trace `[false, true]`), so it fails immediately
with the abort error — refuting the claim that each retry attempt starts a
fresh, non-aborted cancellation token. -/
theorem safeFetch_second_attempt_aborted_signal :
    (safeFetch hangTransport "/x" { method := none, headers := [], body := .absent }
      { autoJSON := true, retries := 1, timeout := 1000 }).attempts = [false, true]
    ∧ (safeFetch hangTransport "/x" { method := none, headers := [], body := .absent }
      { autoJSON := true, retries := 1, timeout := 1000 }).outcome
        = .resolved .abortErrV .nullV :=
  ⟨rfl, rfl⟩

/-- C3 counterexample: a successful response with content-type
`application/json` whose decoded body is the JSON value `null` makes
`safeFetch` resolve with BOTH slots `null` (`return [null, data]` with
`data === null`), refuting the claim that the caller never receives both
slots null. -/
theorem safeFetch_json_null_both_slots_null :
    (safeFetch (fun _ => .respond respJsonNull) "/x"
      { method := none, headers := [], body := .absent }
      { autoJSON := true, retries := 0, timeout := 0 }).outcome
      = .resolved .nullV .nullV := rfl

theorem abortMono_single (b : Bool) : abortMono [b] = true := by
  cases b <;> rfl

theorem abortMono_cons_false (l : List Bool) :
    abortMono (false :: l) = abortMono l := rfl

theorem abortMono_cons_true (l : List Bool) :
    abortMono (true :: l) = l.all (fun b => b == true) := rfl

theorem attemptStep_preserves (transport : Nat → AttemptSpec) (idx : Nat)
    (st : LoopState) (h1 : st.aborted = false) (h2 : st.timerPending = false) :
    (attemptStep transport idx st).2.aborted = false
    ∧ (attemptStep transport idx st).2.timerPending = false := by
  unfold attemptStep
  rcases h : transport idx with r | m | _
  · rcases hr : readData r with m | d
    · simp [h1, hr]
    · rcases hok : r.ok <;> simp [h1, hr, hok]
  · simp [h1, h2]
  · simp [h1, h2]

theorem attemptStep_thrown_isError (transport : Nat → AttemptSpec) (idx : Nat)
    (st : LoopState) (e : JsVal) (st' : LoopState)
    (h : attemptStep transport idx st = (.thrown e, st')) :
    isErrorInstance e = true := by
  unfold attemptStep at h
  repeat' split at h
  all_goals injection h with h1 h2
  all_goals
    first
      | (injection h1 with h3; subst h3; rfl)
      | injection h1

theorem safeFetchLoop_step (transport : Nat → AttemptSpec) (idx rem : Nat)
    (st : LoopState) :
    safeFetchLoop transport idx rem st =
      match attemptStep transport idx st, rem with
      | (.success d, _), _ => { attempts := [st.aborted], outcome := .resolved .nullV d }
      | (.hangs, _), _ => { attempts := [st.aborted], outcome := .hanged }
      | (.thrown e, _), 0 => { attempts := [st.aborted], outcome := .resolved e .nullV }
      | (.thrown _, st2), r + 1 =>
          { attempts := st.aborted :: (safeFetchLoop transport (idx + 1) r st2).attempts,
            outcome := (safeFetchLoop transport (idx + 1) r st2).outcome } := by
  conv_lhs => rw [safeFetchLoop]
  rcases h : attemptStep transport idx st with ⟨out, st2⟩
  cases out <;> cases rem <;> rfl

theorem safeFetchLoop_aborted_all_true (transport : Nat → AttemptSpec) :
    ∀ (rem idx : Nat) (st : LoopState), st.aborted = true →
    ((safeFetchLoop transport idx rem st).attempts.all (fun b => b == true)) = true := by
  intro rem
  induction rem with
  | zero =>
      intro idx st h
      rw [safeFetchLoop_step]
      simp [attemptStep, h]
  | succ r ih =>
      intro idx st h
      rw [safeFetchLoop_step]
      simp [attemptStep, h]
      simpa using ih (idx + 1) st h

theorem safeFetchLoop_abortMono (transport : Nat → AttemptSpec) :
    ∀ (rem idx : Nat) (st : LoopState),
    abortMono (safeFetchLoop transport idx rem st).attempts = true := by
  intro rem
  induction rem with
  | zero =>
      intro idx st
      rw [safeFetchLoop_step]
      rcases h : attemptStep transport idx st with ⟨out, st2⟩
      cases out <;> simp [abortMono_single]
  | succ r ih =>
      intro idx st
      rw [safeFetchLoop_step]
      rcases h : attemptStep transport idx st with ⟨out, st2⟩
      cases out with
      | success d => simp [abortMono_single]
      | hangs => simp [abortMono_single]
      | thrown te =>
          rcases hab : st.aborted
          · rw [abortMono_cons_false]
            exact ih (idx + 1) st2
          · rw [abortMono_cons_true]
            have h' := h
            simp [attemptStep, hab] at h'
            exact safeFetchLoop_aborted_all_true transport r (idx + 1) st2
              (by simp_all)

theorem safeFetchLoop_no_timer_all_false (transport : Nat → AttemptSpec) :
    ∀ (rem idx : Nat) (st : LoopState), st.aborted = false → st.timerPending = false →
    ((safeFetchLoop transport idx rem st).attempts.all (fun b => b == false)) = true := by
  intro rem
  induction rem with
  | zero =>
      intro idx st h1 h2
      rw [safeFetchLoop_step]
      rcases h : attemptStep transport idx st with ⟨out, st2⟩
      cases out <;> simp [h1]
  | succ r ih =>
      intro idx st h1 h2
      have hpres := attemptStep_preserves transport idx st h1 h2
      rw [safeFetchLoop_step]
      rcases h : attemptStep transport idx st with ⟨out, st2⟩
      rw [h] at hpres
      cases out with
      | success d => simp [h1]
      | hangs => simp [h1]
      | thrown te =>
          simp [h1]
          simpa using ih (idx + 1) st2 hpres.1 hpres.2

theorem safeFetchLoop_netFail (transport : Nat → AttemptSpec)
    (hfail : ∀ k, (transport k).isNetFail = true) :
    ∀ (rem idx : Nat) (st : LoopState), st.aborted = false →
    (safeFetchLoop transport idx rem st).attempts.length = rem + 1
    ∧ ∃ m, (safeFetchLoop transport idx rem st).outcome
        = .resolved (.typeErrV m) .nullV := by
  intro rem
  induction rem with
  | zero =>
      intro idx st h1
      rcases hk : transport idx with r | m | _
      · exact absurd (hfail idx) (by simp [hk, AttemptSpec.isNetFail])
      · rw [safeFetchLoop_step]
        refine ⟨by simp [attemptStep, hk, h1], m, by simp [attemptStep, hk, h1]⟩
      · exact absurd (hfail idx) (by simp [hk, AttemptSpec.isNetFail])
  | succ r ih =>
      intro idx st h1
      rcases hk : transport idx with rr | m | _
      · exact absurd (hfail idx) (by simp [hk, AttemptSpec.isNetFail])
      · have hrec := ih (idx + 1) st h1
        rw [safeFetchLoop_step]
        refine ⟨?_, ?_⟩
        · simp [attemptStep, hk, h1, hrec.1]
        · obtain ⟨mm, hm⟩ := hrec.2
          exact ⟨mm, by simp [attemptStep, hk, h1, hm]⟩
      · exact absurd (hfail idx) (by simp [hk, AttemptSpec.isNetFail])

theorem safeFetchLoop_resolved_shape (transport : Nat → AttemptSpec) :
    ∀ (rem idx : Nat) (st : LoopState) (e d : JsVal),
    (safeFetchLoop transport idx rem st).outcome = .resolved e d →
    e = .nullV ∨ (isErrorInstance e = true ∧ d = .nullV) := by
  intro rem
  induction rem with
  | zero =>
      intro idx st e d h
      rw [safeFetchLoop_step] at h
      rcases hs : attemptStep transport idx st with ⟨out, st2⟩
      rw [hs] at h
      cases out with
      | success dd =>
          simp at h
          exact Or.inl h.1.symm
      | hangs => simp at h
      | thrown te =>
          simp at h
          refine Or.inr ⟨?_, h.2.symm⟩
          rw [← h.1]
          exact attemptStep_thrown_isError transport idx st te st2 hs
  | succ r ih =>
      intro idx st e d h
      rw [safeFetchLoop_step] at h
      rcases hs : attemptStep transport idx st with ⟨out, st2⟩
      rw [hs] at h
      cases out with
      | success dd =>
          simp at h
          exact Or.inl h.1.symm
      | hangs => simp at h
      | thrown te =>
          simp at h
          exact ih (idx + 1) st2 e d h

theorem safeFetchLoop_non_ok (transport : Nat → AttemptSpec) (r : Response)
    (d : JsVal) (hresp : ∀ k, transport k = .respond r) (hok : r.ok = false)
    (hread : readData r = .ok d) :
    ∀ (rem idx : Nat) (st : LoopState), st.aborted = false →
    (safeFetchLoop transport idx rem st).outcome
      = .resolved (httpError r d) .nullV := by
  intro rem
  induction rem with
  | zero =>
      intro idx st h1
      rw [safeFetchLoop_step]
      simp [attemptStep, hresp idx, h1, hread, hok]
  | succ rr ih =>
      intro idx st h1
      rw [safeFetchLoop_step]
      simp [attemptStep, hresp idx, h1, hread, hok]
      exact ih (idx + 1) _ rfl

theorem encodeBody_ok_of_stringifyOk (autoJSON : Bool) (body : BodyVal)
    (headers : HeaderObj) (h : stringifyOk autoJSON body = true) :
    ∃ enc hs, encodeBody autoJSON body headers = .ok (enc, hs) := by
  cases body with
  | objv srl =>
      cases autoJSON with
      | false => exact ⟨.rawObj, headers, rfl⟩
      | true =>
          cases srl with
          | error m => simp [stringifyOk] at h
          | ok s => exact ⟨.text s, _, rfl⟩
  | absent => exact ⟨.absent, headers, rfl⟩
  | strv s => exact ⟨.text s, headers, rfl⟩
  | formData => exact ⟨.formData, headers, rfl⟩

/-- C2 amended: `safeFetch` creates a SINGLE cancellation token (one
`AbortController`, one scheduled timeout when `timeout > 0`) once for the
whole call, before the first attempt, and shares it across retry attempts;
the abort flag is monotone over the attempt trace — once a timeout abort
happens, every subsequent attempt is issued with the already-aborted signal
(refuting per-attempt freshness, see the counterexample) — and with
`timeout = 0` no cancellation is ever scheduled, so every attempt is issued
with a non-aborted signal. -/
theorem safeFetch_single_controller_abort_persists (transport : Nat → AttemptSpec)
    (url : String) (options : RequestOptions) (cfg : FetchConfig) :
    abortMono (safeFetch transport url options cfg).attempts = true
    ∧ (cfg.timeout = 0 →
        ((safeFetch transport url options cfg).attempts.all
          (fun b => b == false)) = true) := by
  rcases henc : encodeBody cfg.autoJSON options.body
      (objMerge [("Accept", some "application/json")] options.headers) with e | ⟨enc, hs⟩
  · refine ⟨?_, fun _ => ?_⟩ <;>
      (simp only [safeFetch]; rw [henc]) <;> rfl
  · refine ⟨?_, fun ht => ?_⟩
    · simp only [safeFetch]
      rw [henc]
      exact safeFetchLoop_abortMono transport cfg.retries 0
        { aborted := false, timerPending := decide (cfg.timeout ≠ 0) }
    · simp only [safeFetch]
      rw [henc]
      exact safeFetchLoop_no_timer_all_false transport cfg.retries 0
        { aborted := false, timerPending := decide (cfg.timeout ≠ 0) } rfl
        (by simp [ht])

/-- C2 witness: the amended theorem applied to a concrete timeout-free
call. -/
theorem safeFetch_single_controller_abort_persists_witness :
    abortMono (safeFetch hangTransport "/w"
      { method := none, headers := [], body := .absent }
      { autoJSON := true, retries := 2, timeout := 0 }).attempts = true
    ∧ ((safeFetch hangTransport "/w"
      { method := none, headers := [], body := .absent }
      { autoJSON := true, retries := 2, timeout := 0 }).attempts.all
        (fun b => b == false)) = true :=
  ⟨(safeFetch_single_controller_abort_persists hangTransport "/w"
      { method := none, headers := [], body := .absent }
      { autoJSON := true, retries := 2, timeout := 0 }).1,
   (safeFetch_single_controller_abort_persists hangTransport "/w"
      { method := none, headers := [], body := .absent }
      { autoJSON := true, retries := 2, timeout := 0 }).2 rfl⟩

/-- C3 amended: whenever `safeFetch` resolves to a pair `(e, d)`, at least
one slot is `null`, and a non-null error slot is a genuine `Error` instance
accompanied by a `null` data slot; the only deviation from the claimed
"exactly one side populated" contract is a success whose decoded JSON body
is itself `null`, in which case both slots are `null` (see the
counterexample). -/
theorem safeFetch_at_most_one_slot (transport : Nat → AttemptSpec) (url : String)
    (options : RequestOptions) (cfg : FetchConfig) (e d : JsVal)
    (h : (safeFetch transport url options cfg).outcome = .resolved e d) :
    (e = .nullV ∨ d = .nullV)
    ∧ (e ≠ .nullV → isErrorInstance e = true ∧ d = .nullV) := by
  rcases henc : encodeBody cfg.autoJSON options.body
      (objMerge [("Accept", some "application/json")] options.headers) with er | ⟨enc, hs⟩
  · simp only [safeFetch] at h
    rw [henc] at h
    simp at h
  · simp only [safeFetch] at h
    rw [henc] at h
    rcases safeFetchLoop_resolved_shape transport cfg.retries 0
        { aborted := false, timerPending := decide (cfg.timeout ≠ 0) } e d h
      with h1 | ⟨h1, h2⟩
    · exact ⟨Or.inl h1, fun hne => absurd h1 hne⟩
    · exact ⟨Or.inr h2, fun _ => ⟨h1, h2⟩⟩

/-- C3 witness: the amended theorem applied to a concrete failing call. -/
theorem safeFetch_at_most_one_slot_witness :
    (httpError respNotFound (.objV [("detail", .strV "gone")]) = JsVal.nullV
      ∨ (JsVal.nullV : JsVal) = .nullV)
    ∧ (httpError respNotFound (.objV [("detail", .strV "gone")]) ≠ .nullV →
        isErrorInstance (httpError respNotFound (.objV [("detail", .strV "gone")])) = true
        ∧ (JsVal.nullV : JsVal) = .nullV) :=
  safeFetch_at_most_one_slot (fun _ => .respond respNotFound) "/x"
    { method := none, headers := [], body := .absent }
    { autoJSON := true, retries := 0, timeout := 0 }
    (httpError respNotFound (.objV [("detail", .strV "gone")])) .nullV rfl

/-- C4: with `retries = N` and a transport that fails on every attempt
(and a body on which serialization does not throw, which is required to
reach the loop at all, see C1), the transport is invoked exactly `N + 1`
times and the call resolves with `(error, null)` — a `TypeError` in the
error slot — rather than raising; `retries = 0` gives exactly one
attempt. -/
theorem safeFetch_retry_count (N : Nat) (transport : Nat → AttemptSpec)
    (url : String) (options : RequestOptions) (autoJSON : Bool) (timeout : Nat)
    (hbody : stringifyOk autoJSON options.body = true)
    (hfail : ∀ k, (transport k).isNetFail = true) :
    (safeFetch transport url options
      { autoJSON := autoJSON, retries := N, timeout := timeout }).attempts.length = N + 1
    ∧ ∃ m, (safeFetch transport url options
      { autoJSON := autoJSON, retries := N, timeout := timeout }).outcome
        = .resolved (.typeErrV m) .nullV := by
  obtain ⟨enc, hs, henc⟩ := encodeBody_ok_of_stringifyOk autoJSON options.body
    (objMerge [("Accept", some "application/json")] options.headers) hbody
  have hloop := safeFetchLoop_netFail transport hfail N 0
    { aborted := false, timerPending := decide (timeout ≠ 0) } rfl
  refine ⟨?_, ?_⟩
  · simp only [safeFetch]
    rw [henc]
    exact hloop.1
  · obtain ⟨m, hm⟩ := hloop.2
    exact ⟨m, by simp only [safeFetch]; rw [henc]; exact hm⟩

/-- C4 witness: three invocations for `retries = 2` against an
always-failing transport. -/
theorem safeFetch_retry_count_witness :
    (safeFetch (fun _ => .netFail "Failed to fetch") "/x"
      { method := none, headers := [], body := .absent }
      { autoJSON := true, retries := 2, timeout := 0 }).attempts.length = 2 + 1
    ∧ ∃ m, (safeFetch (fun _ => .netFail "Failed to fetch") "/x"
      { method := none, headers := [], body := .absent }
      { autoJSON := true, retries := 2, timeout := 0 }).outcome
        = .resolved (.typeErrV m) .nullV :=
  safeFetch_retry_count 2 (fun _ => .netFail "Failed to fetch") "/x"
    { method := none, headers := [], body := .absent } true 0 rfl (fun _ => rfl)

/-- C5 amended: for a transport consistently delivering a non-ok response
whose body decodes, `safeFetch` resolves with `(error, null)` where the
error is the plain `Error` built at lines 843-846 — message
`HTTP <status>: <statusText>` with expando properties `status` (equal to
the response's status, as the claim says) and `data` (the decoded body).
It is NOT shaped as the `http` variant of `normalizeError` (no `type`,
`url` or `statusText` properties — see the counterexample); `safeFetch`
never calls `normalizeError`. -/
theorem safeFetch_non_ok_error_shape (transport : Nat → AttemptSpec)
    (url : String) (options : RequestOptions) (cfg : FetchConfig)
    (r : Response) (d : JsVal)
    (hresp : ∀ k, transport k = .respond r) (hok : r.ok = false)
    (hread : readData r = .ok d)
    (hbody : stringifyOk cfg.autoJSON options.body = true) :
    (safeFetch transport url options cfg).outcome
      = .resolved (httpError r d) .nullV
    ∧ getProp (httpError r d) "status" = some (.numV (r.status : Int))
    ∧ getProp (httpError r d) "data" = some d := by
  obtain ⟨enc, hs, henc⟩ := encodeBody_ok_of_stringifyOk cfg.autoJSON options.body
    (objMerge [("Accept", some "application/json")] options.headers) hbody
  refine ⟨?_, rfl, rfl⟩
  simp only [safeFetch]
  rw [henc]
  exact safeFetchLoop_non_ok transport r d hresp hok hread cfg.retries 0
    { aborted := false, timerPending := decide (cfg.timeout ≠ 0) } rfl

/-- C5 witness: the amended theorem at the concrete 404 response. -/
theorem safeFetch_non_ok_error_shape_witness :
    (safeFetch (fun _ => .respond respNotFound) "/y"
      { method := none, headers := [], body := .absent }
      { autoJSON := true, retries := 1, timeout := 0 }).outcome
      = .resolved (httpError respNotFound (.objV [("detail", .strV "gone")])) .nullV
    ∧ getProp (httpError respNotFound (.objV [("detail", .strV "gone")])) "status"
        = some (.numV ((404 : Nat) : Int))
    ∧ getProp (httpError respNotFound (.objV [("detail", .strV "gone")])) "data"
        = some (.objV [("detail", .strV "gone")]) :=
  safeFetch_non_ok_error_shape (fun _ => .respond respNotFound) "/y"
    { method := none, headers := [], body := .absent }
    { autoJSON := true, retries := 1, timeout := 0 }
    respNotFound (.objV [("detail", .strV "gone")])
    (fun _ => rfl) rfl rfl rfl

/-- C5 counterexample: for a non-ok (404) response, `safeFetch` resolves
with the plain `Error` it builds at lines 843-846 — message
`HTTP 404: Not Found` with expando properties `status` and `data`. That
value is NOT the `http` variant produced by `normalizeError` (it is an
`Error`, not a tagged object, and carries no `url` property), refuting the
part of the claim that says the error is shaped per the Error Normalizer's
`http` variant; its `status` does equal the response status. -/
theorem safeFetch_non_ok_error_not_http_shape :
    (safeFetch (fun _ => .respond respNotFound) "/x"
      { method := none, headers := [], body := .absent }
      { autoJSON := true, retries := 0, timeout := 0 }).outcome
      = .resolved (httpError respNotFound (.objV [("detail", .strV "gone")])) .nullV
    ∧ httpError respNotFound (.objV [("detail", .strV "gone")])
        ≠ normalizeError (.respVal respNotFound)
    ∧ getProp (httpError respNotFound (.objV [("detail", .strV "gone")])) "url" = none
    ∧ getProp (httpError respNotFound (.objV [("detail", .strV "gone")])) "status"
        = some (.numV 404) := by
  refine ⟨rfl, ?_, rfl, rfl⟩
  simp [httpError, normalizeError]

/-- C7 is violated by the code: `objectContainsFile` in src/js/utils.js
recurses through the identifier `containsFile`, which is not defined in
that file's scope, so the documented recursive cases throw a
`ReferenceError` instead of returning a boolean: the all-text object
`{ username: "alice" }` (whose own JSDoc example promises `false`) throws,
and so does a `FormData` with a file entry (JSDoc promises `true`). The
intended recursive helper (the local `containsFile` of `formParser` in
src/unnamed/part_000) returns exactly the documented booleans on the same
inputs; leaf cases of `objectContainsFile` that never evaluate the missing
identifier still work. -/
theorem objectContainsFile_reference_error :
    objectContainsFile (.obj [("username", .str "alice")])
      = .error "ReferenceError: containsFile is not defined"
    ∧ containsFile (.obj [("username", .str "alice")]) = false
    ∧ containsFile (.obj [("username", .str "alice"), ("avatar", .file)]) = true
    ∧ objectContainsFile (.formData [("avatar", .file)])
      = .error "ReferenceError: containsFile is not defined"
    ∧ objectContainsFile .nullv = .ok false
    ∧ objectContainsFile .file = .ok true := by
  refine ⟨rfl, ?_, ?_, rfl, rfl, rfl⟩ <;> decide

/-- C8 counterexample: with the default options (`isJson = true`, no token,
no extra entries), `createHeaders` produces only
`Content-Type: application/json` — there is no `Accept: application/json`
default (that default lives in `safeFetch`, not in the header builder), and
the function takes no CSRF token at all, refuting the claimed
extra > CSRF > bearer > (Accept + Content-Type defaults) precedence
chain. -/
theorem createHeaders_no_accept_default :
    headersGet (createHeaders { isJson := true, token := none, extra := [] }) "Accept" = none
    ∧ headersGet (createHeaders { isJson := true, token := none, extra := [] }) "Content-Type"
      = some "application/json" := by
  refine ⟨?_, ?_⟩ <;> decide

theorem find?_filter_ne (l : List (String × String)) (n : String) :
    (l.filter (fun p => p.1 != n)).find? (fun p => p.1 == n) = none := by
  induction l with
  | nil => rfl
  | cons p t ih =>
      by_cases h : p.1 = n
      · simp [List.filter_cons, h, ih]
      · simp [List.filter_cons, h, ih]

theorem find?_filter_other (l : List (String × String)) (a b : String)
    (hab : a ≠ b) :
    (l.filter (fun p => p.1 != a)).find? (fun p => p.1 == b)
      = l.find? (fun p => p.1 == b) := by
  induction l with
  | nil => rfl
  | cons p t ih =>
      by_cases ha : p.1 = a
      · have hb : (p.1 == b) = false := by
          simp [ha]
          exact hab
        rw [List.find?_cons_of_neg _ (by simp [hb])]
        simp [List.filter_cons, ha, ih]
      · by_cases hb : p.1 = b
        · simp [List.filter_cons, ha, hb, Ne.symm hab]
        · simp [List.filter_cons, ha, hb, ih]

theorem headersGet_set_same (hs : List (String × String)) (k v : String) :
    headersGet (headersSet hs k v) k = some v := by
  unfold headersGet headersSet
  rw [List.find?_append, find?_filter_ne]
  simp [List.find?]

theorem headersGet_set_other (hs : List (String × String)) (k v k' : String)
    (h : lowerStr k' ≠ lowerStr k) :
    headersGet (headersSet hs k v) k' = headersGet hs k' := by
  unfold headersGet headersSet
  rw [List.find?_append, find?_filter_other hs (lowerStr k) (lowerStr k') (Ne.symm h)]
  have hkk : (lowerStr k == lowerStr k') = false := by
    simp
    exact Ne.symm h
  rcases hf : hs.find? (fun p => p.1 == lowerStr k') with _ | p
  · simp [List.find?, hkk]
  · simp [hf]

theorem headersGet_foldl_not_mem (l : List (String × String)) :
    ∀ (hs : List (String × String)) (n : String),
    (∀ kv ∈ l, lowerStr kv.1 ≠ lowerStr n) →
    headersGet (l.foldl (fun a kv => headersSet a kv.1 kv.2) hs) n
      = headersGet hs n := by
  induction l with
  | nil =>
      intro hs n _
      rfl
  | cons p t ih =>
      intro hs n h
      rw [List.foldl_cons,
        ih _ n (fun kv hkv => h kv (List.mem_cons_of_mem p hkv)),
        headersGet_set_other hs p.1 p.2 n (Ne.symm (h p (List.mem_cons_self p t)))]

theorem headersGet_foldl_mem (l : List (String × String)) :
    ∀ (hs : List (String × String)) (k v : String),
    (k, v) ∈ l → (l.map (fun kv => lowerStr kv.1)).Nodup →
    headersGet (l.foldl (fun a kv => headersSet a kv.1 kv.2) hs) k = some v := by
  induction l with
  | nil =>
      intro hs k v h _
      cases h
  | cons p t ih =>
      intro hs k v hmem hnd
      rw [List.map_cons, List.nodup_cons] at hnd
      rcases List.mem_cons.1 hmem with heq | hmem'
      · subst heq
        have hnot : ∀ kv ∈ t, lowerStr kv.1 ≠ lowerStr (k, v).1 := by
          intro kv hkv hEq
          exact hnd.1 (by rw [← hEq]; exact List.mem_map_of_mem _ hkv)
        rw [List.foldl_cons, headersGet_foldl_not_mem t _ k hnot,
          headersGet_set_same]
      · rw [List.foldl_cons]
        exact ih _ k v hmem' hnd.2

theorem extraGet_none_of_lower (extra : List (String × String)) (k : String)
    (h : ∀ kv ∈ extra, lowerStr kv.1 ≠ lowerStr k) :
    extraGet extra k = none := by
  unfold extraGet
  have hnone : extra.find? (fun p => p.1 == k) = none :=
    List.find?_eq_none.2 (fun p hp hb =>
      h p hp (by rw [eq_of_beq hb]))
  rw [hnone]
  rfl

/-- C8 amended: `createHeaders` obeys the precedence that actually exists in
the code — explicit `extra` entries override the bearer auth header, which
coexists with the default JSON content type; when `isJson` is true and no
`extra` entry names `Content-Type`, the default
`Content-Type: application/json` is present. There is NO CSRF level and NO
`Accept: application/json` default in the header builder (the `Accept`
default is added by `safeFetch` itself; see the counterexample). -/
theorem createHeaders_precedence (o : HeaderOptions)
    (hnd : (o.extra.map (fun kv => lowerStr kv.1)).Nodup) :
    (∀ k v, (k, v) ∈ o.extra → headersGet (createHeaders o) k = some v)
    ∧ ((∀ kv ∈ o.extra, lowerStr kv.1 ≠ "authorization") →
        truthyOpt o.token = true →
        headersGet (createHeaders o) "Authorization"
          = some ("Bearer " ++ orEmpty o.token))
    ∧ ((∀ kv ∈ o.extra, lowerStr kv.1 ≠ "content-type") → o.isJson = true →
        headersGet (createHeaders o) "Content-Type" = some "application/json")
    ∧ ((∀ kv ∈ o.extra, lowerStr kv.1 ≠ "accept") →
        headersGet (createHeaders o) "Accept" = none) := by
  refine ⟨?_, ?_, ?_, ?_⟩
  · intro k v hkv
    simp only [createHeaders]
    exact headersGet_foldl_mem o.extra _ k v hkv hnd
  · intro hauth htok
    simp only [createHeaders]
    rw [headersGet_foldl_not_mem o.extra _ "Authorization" hauth]
    rcases hT : o.token with _ | t
    · rw [hT] at htok
      simp [truthyOpt] at htok
    · rw [hT] at htok
      simp only [truthyOpt] at htok
      simp [htok, orEmpty]
      rw [headersGet_set_same]
  · intro hct hjson
    simp only [createHeaders]
    rw [headersGet_foldl_not_mem o.extra _ "Content-Type" hct]
    have hguard : extraGet o.extra "Content-Type" = none :=
      extraGet_none_of_lower o.extra "Content-Type" hct
    rcases hT : o.token with _ | t
    · simp [hjson, hguard, truthyOpt]
      rw [headersGet_set_same]
    · rcases htt : t != ""
      · simp [hjson, hguard, truthyOpt, htt]
        rw [headersGet_set_same]
      · simp [hjson, hguard, truthyOpt, htt]
        rw [headersGet_set_other _ _ _ _ (by decide), headersGet_set_same]
  · intro hacc
    simp only [createHeaders]
    rw [headersGet_foldl_not_mem o.extra _ "Accept" hacc]
    rcases hT : o.token with _ | t
    · rcases hj : o.isJson && !truthyOpt (extraGet o.extra "Content-Type")
      · simp [hj]
        rfl
      · simp [hj]
        rw [headersGet_set_other _ _ _ _ (by decide)]
        rfl
    · rcases htt : t != ""
      · rcases hj : o.isJson && !truthyOpt (extraGet o.extra "Content-Type")
        · simp [htt, hj]
          rfl
        · simp [htt, hj]
          rw [headersGet_set_other _ _ _ _ (by decide)]
          rfl
      · rcases hj : o.isJson && !truthyOpt (extraGet o.extra "Content-Type")
        · simp [htt, hj]
          rw [headersGet_set_other _ _ _ _ (by decide)]
          rfl
        · simp [htt, hj]
          rw [headersGet_set_other _ _ _ _ (by decide),
            headersGet_set_other _ _ _ _ (by decide)]
          rfl

/-- C8 witness: the amended precedence theorem at a concrete option set
where `extra` overrides the JSON default and coexists with a bearer
token. -/
theorem createHeaders_precedence_witness :
    headersGet (createHeaders headerOptsW) "X-Client" = some "my-app"
    ∧ headersGet (createHeaders headerOptsW) "Content-Type" = some "text/plain"
    ∧ headersGet (createHeaders headerOptsW) "Authorization"
        = some ("Bearer " ++ orEmpty (some "abc123"))
    ∧ headersGet (createHeaders headerOptsW) "Accept" = none := by
  have h := createHeaders_precedence headerOptsW (by decide)
  exact ⟨h.1 "X-Client" "my-app" (by decide),
    h.1 "Content-Type" "text/plain" (by decide),
    h.2.1 (by decide) (by decide),
    h.2.2.2 (by decide)⟩

theorem truthyOpt_none : truthyOpt none = false := rfl

/-- C9: the CSRF token resolver tries the hidden form field, then the meta
tag, then the `csrftoken` cookie, in that order; the first truthy source is
cached, so with a hidden-field token present two sequential calls return
the identical string and perform exactly one DOM lookup in total (the
second call performs none); a failed resolution leaves the cache unchanged
and the next call re-attempts the lookups. -/
theorem getCSRFToken_order_and_cache (dom : Dom) (cache : Option String) :
    (truthyOpt dom.hiddenInput = true →
      (getCSRFToken dom none).token = dom.hiddenInput
      ∧ (getCSRFToken dom none).cache = dom.hiddenInput
      ∧ (getCSRFToken dom (getCSRFToken dom none).cache).token
          = (getCSRFToken dom none).token
      ∧ (getCSRFToken dom none).queries
          + (getCSRFToken dom (getCSRFToken dom none).cache).queries = 1)
    ∧ (truthyOpt cache = false → truthyOpt dom.hiddenInput = false →
        truthyOpt dom.metaTag = true →
      (getCSRFToken dom cache).token = dom.metaTag
      ∧ (getCSRFToken dom cache).cache = dom.metaTag)
    ∧ (truthyOpt cache = false → truthyOpt dom.hiddenInput = false →
        truthyOpt dom.metaTag = false →
        truthyOpt (getCookie dom.documentCookie "csrftoken") = true →
      (getCSRFToken dom cache).token = getCookie dom.documentCookie "csrftoken"
      ∧ (getCSRFToken dom cache).cache = getCookie dom.documentCookie "csrftoken")
    ∧ (truthyOpt cache = false → truthyOpt dom.hiddenInput = false →
        truthyOpt dom.metaTag = false →
        truthyOpt (getCookie dom.documentCookie "csrftoken") = false →
      (getCSRFToken dom cache).token = none
      ∧ (getCSRFToken dom cache).cache = cache
      ∧ (getCSRFToken dom cache).queries = 2) := by
  refine ⟨?_, ?_, ?_, ?_⟩
  · intro h1
    simp [getCSRFToken, truthyOpt_none, h1]
  · intro h0 h1 h2
    simp [getCSRFToken, h0, h1, h2]
  · intro h0 h1 h2 h3
    simp [getCSRFToken, h0, h1, h2, h3]
  · intro h0 h1 h2 h3
    simp [getCSRFToken, h0, h1, h2, h3]

/-- C9 witness: the theorem's two-call caching part at a concrete DOM with
a hidden-field token. -/
theorem getCSRFToken_order_and_cache_witness :
    (getCSRFToken domWithHidden none).token = domWithHidden.hiddenInput
    ∧ (getCSRFToken domWithHidden none).cache = domWithHidden.hiddenInput
    ∧ (getCSRFToken domWithHidden (getCSRFToken domWithHidden none).cache).token
        = (getCSRFToken domWithHidden none).token
    ∧ (getCSRFToken domWithHidden none).queries
        + (getCSRFToken domWithHidden
            (getCSRFToken domWithHidden none).cache).queries = 1 :=
  (getCSRFToken_order_and_cache domWithHidden none).1 (by decide)

theorem safeFetchLoop_zero_attempts (transport : Nat → AttemptSpec) (idx : Nat)
    (st : LoopState) :
    (safeFetchLoop transport idx 0 st).attempts = [st.aborted] := by
  rw [safeFetchLoop_step]
  rcases h : attemptStep transport idx st with ⟨out, st2⟩
  cases out <;> rfl

/-- C10 counterexample: a `fetchWithCSRF` call whose body cannot be
serialized performs ZERO transport attempts — the delegated `safeFetch`
rejects during body preparation — refuting the claim that every
`fetchWithCSRF` call performs exactly one transport attempt. -/
theorem fetchWithCSRF_cyclic_body_zero_attempts :
    ((fetchWithCSRF hangTransport domEmpty none "/x"
      { method := none, headers := [],
        body := .objv (.error "Converting circular structure to JSON") }).1).attempts = []
    ∧ ((fetchWithCSRF hangTransport domEmpty none "/x"
      { method := none, headers := [],
        body := .objv (.error "Converting circular structure to JSON") }).1).outcome
      = .raised (.typeErrV "Converting circular structure to JSON") :=
  ⟨rfl, rfl⟩

/-- C10 amended: `fetchWithCSRF` delegates to `safeFetch` passing only
`autoJSON = true` (so `retries` and `timeout` take their defaults `0`,
which cannot be changed through `fetchWithCSRF`): at most one transport
attempt occurs — exactly one whenever body serialization does not throw
(a cyclic body raises with zero attempts, see the counterexample) — no
timeout is ever scheduled (every attempt is issued with a non-aborted
signal), and the issued request's method defaults to `POST` when `options`
carries no method. -/
theorem fetchWithCSRF_delegates_defaults (transport : Nat → AttemptSpec)
    (dom : Dom) (cache : Option String) (url : String)
    (options : RequestOptions) :
    (fetchWithCSRF transport dom cache url options).1
      = safeFetch transport url
          { method := some (strOr options.method "POST"),
            headers := objMerge [("X-CSRFToken", (getCSRFToken dom cache).token)]
              options.headers,
            body := options.body }
          { autoJSON := true, retries := 0, timeout := 0 }
    ∧ (fetchWithCSRF transport dom cache url options).1.attempts.length ≤ 1
    ∧ (stringifyOk true options.body = true →
        (fetchWithCSRF transport dom cache url options).1.attempts.length = 1)
    ∧ ((fetchWithCSRF transport dom cache url options).1.attempts.all
        (fun b => b == false)) = true
    ∧ (options.method = none →
        ∀ req, (fetchWithCSRF transport dom cache url options).1.request = some req →
          req.method = some "POST") := by
  have hdel : (fetchWithCSRF transport dom cache url options).1
      = safeFetch transport url
          { method := some (strOr options.method "POST"),
            headers := objMerge [("X-CSRFToken", (getCSRFToken dom cache).token)]
              options.headers,
            body := options.body }
          { autoJSON := true, retries := 0, timeout := 0 } := rfl
  refine ⟨hdel, ?_, ?_, ?_, ?_⟩
  · rw [hdel]
    rcases henc : encodeBody true options.body
        (objMerge [("Accept", some "application/json")]
          (objMerge [("X-CSRFToken", (getCSRFToken dom cache).token)]
            options.headers)) with er | ⟨enc, hs2⟩
    · simp only [safeFetch]
      rw [henc]
      simp
    · simp only [safeFetch]
      rw [henc]
      simp [safeFetchLoop_zero_attempts]
  · intro hok
    obtain ⟨enc, hs2, henc⟩ := encodeBody_ok_of_stringifyOk true options.body
      (objMerge [("Accept", some "application/json")]
        (objMerge [("X-CSRFToken", (getCSRFToken dom cache).token)]
          options.headers)) hok
    rw [hdel]
    simp only [safeFetch]
    rw [henc]
    simp [safeFetchLoop_zero_attempts]
  · rw [hdel]
    rcases henc : encodeBody true options.body
        (objMerge [("Accept", some "application/json")]
          (objMerge [("X-CSRFToken", (getCSRFToken dom cache).token)]
            options.headers)) with er | ⟨enc, hs2⟩
    · simp only [safeFetch]
      rw [henc]
      simp
    · simp only [safeFetch]
      rw [henc]
      exact safeFetchLoop_no_timer_all_false transport 0 0
        { aborted := false, timerPending := decide ((0 : Nat) ≠ 0) } rfl rfl
  · intro hm req hreq
    rw [hdel] at hreq
    rcases henc : encodeBody true options.body
        (objMerge [("Accept", some "application/json")]
          (objMerge [("X-CSRFToken", (getCSRFToken dom cache).token)]
            options.headers)) with er | ⟨enc, hs2⟩
    · simp only [safeFetch] at hreq
      rw [henc] at hreq
      simp at hreq
    · simp only [safeFetch] at hreq
      rw [henc] at hreq
      simp at hreq
      rw [← hreq, hm]
      rfl

/-- C10 witness: one transport attempt and a defaulted `POST` method for a
concrete `fetchWithCSRF` call. -/
theorem fetchWithCSRF_delegates_defaults_witness :
    ((fetchWithCSRF (fun _ => .respond respJsonNull) domWithHidden none "/w2"
      { method := none, headers := [], body := .absent }).1).attempts.length = 1
    ∧ (∀ req, ((fetchWithCSRF (fun _ => .respond respJsonNull) domWithHidden none "/w2"
        { method := none, headers := [], body := .absent }).1).request = some req →
        req.method = some "POST") :=
  ⟨(fetchWithCSRF_delegates_defaults (fun _ => .respond respJsonNull)
      domWithHidden none "/w2"
      { method := none, headers := [], body := .absent }).2.2.1 rfl,
   (fetchWithCSRF_delegates_defaults (fun _ => .respond respJsonNull)
      domWithHidden none "/w2"
      { method := none, headers := [], body := .absent }).2.2.2.2 rfl⟩

end Utils

